import Mathlib

/-
Verification of the template matching/execution engine (artnikel/nuclei).

Strings are modelled as lists of characters (`Str`); Go byte slices holding
text are modelled the same way.  Go functions that perform network I/O are
modelled by passing the network behaviour in as an explicit oracle function
(`fetch`, `attemptF`, `DNSLookups`, `exec`); everything else is translated
directly from the Go source.  Character-class functions (ToLower, ToUpper,
TrimSpace, the regexp \s class) are modelled on the ASCII / Latin-1 range,
which covers every string the engine compares.
-/

namespace NucleiSpec

/-- Character strings, modelling Go `string` values (and `[]byte` holding text). -/
abbrev Str := List Char

/-- Coercion from Lean string literals to the `Str` model. -/
def strL (s : String) : Str := s.data

/-- Model of Go `strings.HasPrefix s p` (argument order: subject, pattern). -/
def startsWithStr : Str → Str → Bool
  | _, [] => true
  | [], _ :: _ => false
  | c :: s, p :: ps => if c = p then startsWithStr s ps else false

/-- Model of Go `strings.HasSuffix s p`. -/
def endsWithStr (s p : Str) : Bool := startsWithStr s.reverse p.reverse

/-- Model of Go `strings.Contains s p`: some suffix of `s` starts with `p`. -/
def containsStr : Str → Str → Bool
  | [], p => startsWithStr [] p
  | c :: t, p => if startsWithStr (c :: t) p then true else containsStr t p

/-- Model of Go `strings.Index s p`: index of the first occurrence of `p` in `s`,
`none` for Go's `-1`. -/
def indexOfStr : Str → Str → Option Nat
  | s, pat =>
    if startsWithStr s pat then some 0
    else
      match s with
      | [] => none
      | _ :: t => (indexOfStr t pat).map (· + 1)

/-- Fuelled worker for `replaceAll` (the fuel makes the recursion structural;
each step consumes at least one character, so `fuel = s.length` is enough and
the fuel-exhausted arm is never reached from `replaceAll`). -/
def replaceAllGo (old nv : Str) : Nat → Str → Str
  | _, [] => []
  | 0, s => s
  | fuel + 1, c :: rest =>
    if old ≠ [] ∧ startsWithStr (c :: rest) old = true then
      nv ++ replaceAllGo old nv fuel (List.drop (old.length - 1) rest)
    else
      c :: replaceAllGo old nv fuel rest

/-- Model of Go `strings.ReplaceAll s old new` for nonempty `old` (every pattern the
engine replaces is nonempty): leftmost non-overlapping occurrences of `old` are
replaced by `new`. -/
def replaceAll (s old nv : Str) : Str := replaceAllGo old nv s.length s

/-- Fuelled worker for `splitStr` (same fuel discipline as `replaceAllGo`). -/
def splitStrGo (sep : Str) : Nat → Str → List Str
  | _, [] => [[]]
  | 0, s => [s]
  | fuel + 1, c :: rest =>
    if sep ≠ [] ∧ startsWithStr (c :: rest) sep = true then
      [] :: splitStrGo sep fuel (List.drop (sep.length - 1) rest)
    else
      match splitStrGo sep fuel rest with
      | [] => [[c]]
      | seg :: segs => (c :: seg) :: segs

/-- Model of Go `strings.Split s sep` for nonempty `sep` (the engine only splits on
the two-character separator). -/
def splitStr (sep s : Str) : List Str := splitStrGo sep s.length s

/-- Model of Go `unicode.IsSpace` on the Latin-1 range (the range the engine's
inputs use): space, tab, newline, vertical tab, form feed, carriage return,
NEL (U+0085) and NBSP (U+00A0). -/
def isSpaceGo (c : Char) : Bool :=
  c = ' ' ∨ c = '\t' ∨ c = '\n' ∨ c = Char.ofNat 11 ∨ c = Char.ofNat 12 ∨
    c = '\r' ∨ c.toNat = 133 ∨ c.toNat = 160

/-- Model of Go `strings.TrimSpace`. -/
def trimSpaceStr (s : Str) : Str :=
  ((s.dropWhile isSpaceGo).reverse.dropWhile isSpaceGo).reverse

/-- Character class of the RE2 regular-expression `\s` escape: `[\t\n\f\r ]`. -/
def isRegexSpace (c : Char) : Bool :=
  c = ' ' ∨ c = '\t' ∨ c = '\n' ∨ c = Char.ofNat 12 ∨ c = '\r'

/-- Model of `regexp.MustCompile("\\s+").ReplaceAllString(s, " ")`: every maximal
run of regex whitespace becomes a single space.  The boolean flag records
whether the previous character belonged to a run already emitted. -/
def collapseSpacesAux : Bool → Str → Str
  | _, [] => []
  | inRun, c :: rest =>
    if isRegexSpace c then
      if inRun then collapseSpacesAux true rest
      else ' ' :: collapseSpacesAux true rest
    else c :: collapseSpacesAux false rest

/-- Collapse runs of regex whitespace to one space (see `collapseSpacesAux`). -/
def collapseRegexSpaces (s : Str) : Str := collapseSpacesAux false s

/-- Model of Go `strings.ToLower` on ASCII. -/
def lowerChar (c : Char) : Char :=
  if 'A' ≤ c ∧ c ≤ 'Z' then Char.ofNat (c.toNat + 32) else c

/-- Lowercase an entire string (Go `strings.ToLower`). -/
def lowerStr (s : Str) : Str := s.map lowerChar

/-- Model of Go `strings.ToUpper` on ASCII. -/
def upperChar (c : Char) : Char :=
  if 'a' ≤ c ∧ c ≤ 'z' then Char.ofNat (c.toNat - 32) else c

/-- Uppercase an entire string (Go `strings.ToUpper`). -/
def upperStr (s : Str) : Str := s.map upperChar

/-- Model of Go `strings.Join xs sep`. -/
def joinStr (sep : Str) : List Str → Str
  | [] => []
  | [x] => x
  | x :: xs => x ++ sep ++ joinStr sep xs

/-- Decimal digit value of a character, if it is a digit. -/
def digitVal (c : Char) : Option Nat :=
  if '0' ≤ c ∧ c ≤ '9' then some (c.toNat - 48) else none

/-- Accumulating digit parser for `parseDigits`. -/
def parseDigitsGo : Str → Nat → Option Nat
  | [], acc => some acc
  | c :: rest, acc =>
    match digitVal c with
    | none => none
    | some d => parseDigitsGo rest (acc * 10 + d)

/-- Parse a nonempty all-digit string as a natural number (else `none`). -/
def parseDigits : Str → Option Nat
  | [] => none
  | s => parseDigitsGo s 0

/-- Model of Go `strconv.Atoi` (an optional sign followed by at least one digit;
int64 overflow is out of the modelled range). -/
def goAtoi : Str → Option Int
  | [] => none
  | '+' :: rest => (parseDigits rest).map Int.ofNat
  | '-' :: rest => (parseDigits rest).map (fun n => -(n : Int))
  | s => (parseDigits s).map Int.ofNat

/-! Quote and whitespace normalization (`flexibleContains`,
src/internal/templates/typematcher.go lines 370-392). -/

/-- Model of the `normalizeQuotes` closure inside `flexibleContains`: unescape
`\"` and `\'`, replace `"` by itself (a literal no-op step in the source), then
replace `'` by `"`. -/
def normalizeQuotes (s : Str) : Str :=
  let s1 := replaceAll s ['\\', '"'] ['"']
  let s2 := replaceAll s1 ['\\', '\''] ['\'']
  let s3 := replaceAll s2 ['"'] ['"']
  replaceAll s3 ['\''] ['"']

/-- Model of the `normalizeSpaces` closure inside `flexibleContains`: delete
newlines, carriage returns and tabs, collapse remaining whitespace runs to one
space, and trim. -/
def normalizeSpacesGo (s : Str) : Str :=
  let s1 := replaceAll s ['\n'] []
  let s2 := replaceAll s1 ['\r'] []
  let s3 := replaceAll s2 ['\t'] []
  trimSpaceStr (collapseRegexSpaces s3)

/-- Model of `flexibleContains(text, pattern)`: substring containment after quote
and whitespace normalization of both sides. -/
def flexibleContains (text pat : Str) : Bool :=
  containsStr (normalizeSpacesGo (normalizeQuotes text)) (normalizeSpacesGo (normalizeQuotes pat))

/-! Data model (src/unnamed/part_011 second variant, src/unnamed/part_009).
Go maps are modelled as association lists; `[]byte` as `Str`. -/

/-- Model of a Go `error` value as observed by the engine: its message plus the
two interface probes `net.Error.Timeout()` and `net.DNSError.Temporary()` that
`isRetryableError` performs. -/
structure GoError where
  msg : Str
  netTimeout : Bool
  dnsTemporary : Bool
deriving DecidableEq

/-- Model of the parts of `http.Response` the matcher evaluator reads: the
status code and the header map (as an ordered association list; Go map
iteration order is unspecified, one order is fixed here). -/
structure HTTPResponse where
  statusCode : Int
  header : List (Str × List Str)
deriving DecidableEq

/-- Model of `DNSResponse` (part_009): the records and their joined raw form. -/
structure DNSResponseM where
  records : List Str
  raw : Str
deriving DecidableEq

/-- Model of `NetworkResponse` (part_009). -/
structure NetworkResponseM where
  data : Str
deriving DecidableEq

/-- Model of `HeadlessResponse` (part_009); the render-time, screenshot and
error fields are not read by any verified function and are omitted. -/
structure HeadlessResponseM where
  html : Str
  statusCode : Int
deriving DecidableEq

/-- Model of `MatchContext` (part_009): the per-request union of captured
responses; `nil` pointers become `none`. -/
structure MatchContext where
  resp : Option HTTPResponse
  body : Str
  dns : Option DNSResponseM
  network : Option NetworkResponseM
  headless : Option HeadlessResponseM

/-- Model of the `Matcher` struct (part_011, current variant; the `dsl` field is
the one read by `checkSingleMatcher`'s `"dsl"` arm).  `Type` is renamed `mtype`
(Lean keyword). -/
structure Matcher where
  mtype : Str
  pattern : Str
  part : Str
  words : List Str
  status : List Int
  condition : Str
  regex : List Str
  size : Int
  dlength : Int
  binary : List Str
  xpath : List Str
  jsonpath : Str
  noCase : Bool
  dsl : List Str
deriving DecidableEq

/-- Model of the Go `interface{}` values stored in variable and payload maps:
strings, lists of interface values, string lists, or anything else. -/
inductive GoVal where
  | str : Str → GoVal
  | ilist : List GoVal → GoVal
  | slist : List Str → GoVal
  | other : GoVal

/-- Model of the `Request` struct (part_011, current variant).  `Type` is
renamed `rtype`; the extractor / payload / precondition fields are carried but
not read by any verified function. -/
structure Request where
  rtype : Str
  method : Str
  path : List Str
  headers : List (Str × Str)
  matchers : List Matcher
  matchersCondition : Str
  attack : Str
  payloads : List (Str × GoVal)
  pipeline : Bool
  options : List (Str × GoVal)

/-! Word matcher (`matchWordsByPart`, typematcher.go lines 513-559) and the
matcher-list combinator (`checkMatchers`, templates.go lines 486-516). -/

/-- Header lines as built by `matchWordsByPart`: `k: v1,v2` joined by newlines. -/
def headerText (resp : HTTPResponse) : Str :=
  joinStr ['\n'] (resp.header.map (fun kv => kv.1 ++ strL (": ") ++ joinStr [','] kv.2))

/-- Decimal rendering of a status code (`fmt.Sprintf("%d", resp.StatusCode)`). -/
def intToStr (i : Int) : Str := (toString i).data

/-- Part selection of `matchWordsByPart`: the `switch part` at the top of the
function (cases `body`/empty, `header`, `all`, `status`, default body). -/
def selectWordText (resp : HTTPResponse) (body : Str) (part : Str) : Str :=
  if part = strL ("body") ∨ part = [] then body
  else if part = strL ("header") then headerText resp
  else if part = strL ("all") then body ++ '\n' :: headerText resp
  else if part = strL ("status") then intToStr resp.statusCode
  else body

/-- The in-place lowercasing loop `for i, w := range words { words[i] = ToLower(w) }`. -/
def lowerWordsLoop : List Str → List Str
  | [] => []
  | w :: ws => lowerStr w :: lowerWordsLoop ws

/-- The `condition == "and"` loop of `matchWordsByPart`: return false at the
first absent word, true after the loop. -/
def wordsAndLoop (text : Str) : List Str → Bool
  | [] => true
  | w :: ws => if flexibleContains text w then wordsAndLoop text ws else false

/-- The fallback loop of `matchWordsByPart` (any condition other than `"and"`):
return true at the first present word, false after the loop. -/
def wordsOrLoop (text : Str) : List Str → Bool
  | [] => false
  | w :: ws => if flexibleContains text w then true else wordsOrLoop text ws

/-- Model of `matchWordsByPart(resp, body, words, part, condition, noCase)`.
Because the Go function mutates the caller's `words` slice in place when
`noCase` is set, the model returns the pair (match result, final contents of
the `words` array). -/
def matchWordsByPart (resp : HTTPResponse) (body : Str) (words : List Str)
    (part condition : Str) (noCase : Bool) : Bool × List Str :=
  let text := selectWordText resp body part
  let text2 := if noCase then lowerStr text else text
  let words2 := if noCase then lowerWordsLoop words else words
  let res := if condition = strL ("and") then wordsAndLoop text2 words2 else wordsOrLoop text2 words2
  (res, words2)

/-- The OR combination loop of `checkMatchers`. -/
def orLoopB : List Bool → Bool
  | [] => false
  | b :: bs => if b then true else orLoopB bs

/-- The AND combination loop of `checkMatchers`. -/
def andLoopB : List Bool → Bool
  | [] => true
  | b :: bs => if b then andLoopB bs else false

/-- Model of `checkMatchers(matchers, condition, ctx, logger)` (templates.go
lines 486-516).  The per-matcher evaluation `checkSingleMatcher` is passed in
as the function `single` (its arms dispatch to regexp / xpath / jsonpath /
govaluate library code); the combination logic is translated directly: an
empty list matches, the condition is lowercased with empty defaulting to
`and`, and the results are OR-ed or AND-ed. -/
def checkMatchers (single : Matcher → MatchContext → Bool) (matchers : List Matcher)
    (condition : Str) (ctx : MatchContext) : Bool :=
  if matchers.length = 0 then true
  else
    let cond1 := lowerStr condition
    let cond2 := if cond1 = [] then strL ("and") else cond1
    let results := matchers.map (fun m => single m ctx)
    if cond2 = strL ("or") then orLoopB results else andLoopB results

/-- The `case "word"` arm of `checkSingleMatcher` (templates.go lines 531-539),
with the in-place mutation of the matcher's `Words` slice made explicit: the
returned matcher is the caller's matcher after evaluation (Go slices share
their backing array, so `matchWordsByPart`'s writes land in `m.Words`). -/
def checkWordMatcher (m : Matcher) (ctx : MatchContext) : Bool × Matcher :=
  match ctx.resp with
  | none => (false, m)
  | some resp =>
    let r := matchWordsByPart resp ctx.body m.words m.part m.condition m.noCase
    (r.1, { m with words := r.2 })

/-! Retry policy (`isRetryableError` and `doHTTPRequestWithRetry`,
src/unnamed/part_009 lines 393-430 and 448-507). -/

/-- The whitelist of transient error substrings in `isRetryableError`. -/
def retryableErrors : List Str :=
  [strL ("connection refused"), strL ("connection reset by peer"),
   strL ("no route to host"), strL ("network is unreachable"), strL ("timeout"),
   strL ("temporary failure"), strL ("server misbehaving"),
   strL ("connection timed out"), strL ("i/o timeout")]

/-- Model of `isRetryableError(err)`: nil is not retryable; otherwise retryable
iff the lowercased message contains a whitelisted substring, or the error is a
`net.Error` timeout, or a temporary `net.DNSError`. -/
def isRetryableError : Option GoError → Bool
  | none => false
  | some e =>
    if retryableErrors.any (fun r => containsStr (lowerStr e.msg) r) then true
    else if e.netTimeout then true
    else if e.dnsTemporary then true
    else false

/-- Observable outcome of one run of `doHTTPRequestWithRetry`: how many times
`client.Do` was called, which backoff delays were slept between attempts, and
whether a response was obtained. -/
structure RetryRun where
  attempts : Nat
  delays : List Nat
  success : Bool
deriving DecidableEq

/-- The retry loop of `doHTTPRequestWithRetry`, modelled with the network as the
oracle `attemptF` (attempt index to `client.Do` outcome; `none` = a response
was obtained — the subsequent body handling returns without further attempts
either way).  `a` is the current attempt index and `fuel = retries + 1 - a` the
number of loop iterations still allowed; `delay` is `advanced.RetryDelay`, and
the recorded delay for a failed attempt `a` is `delay * (a + 1)` as in the
source (`waitTime := advanced.RetryDelay * time.Duration(attempt+1)`). -/
def retryLoop (delay : Nat) (attemptF : Nat → Option GoError) : Nat → Nat → RetryRun
  | _, 0 => { attempts := 0, delays := [], success := false }
  | a, fuel + 1 =>
    match attemptF a with
    | none => { attempts := 1, delays := [], success := true }
    | some e =>
      if isRetryableError (some e) = false then
        { attempts := 1, delays := [], success := false }
      else if fuel = 0 then
        { attempts := 1, delays := [], success := false }
      else
        let r := retryLoop delay attemptF (a + 1) fuel
        { attempts := r.attempts + 1, delays := delay * (a + 1) :: r.delays, success := r.success }

/-- Model of `doHTTPRequestWithRetry` with `advanced.Retries = retries` and
`advanced.RetryDelay = delay`: the loop runs attempts `0 .. retries`. -/
def doHTTPRequestWithRetry (retries delay : Nat) (attemptF : Nat → Option GoError) : RetryRun :=
  retryLoop delay attemptF 0 (retries + 1)

/-! Client-side redirect following (`parseJSRedirect` and the per-URL loop of
`matchHTTPRequest`, part_009 lines 432-445 and 536-627; `normalizeURL` and
`buildFullURL`, utils.go lines 146-158 and 277-284). -/

/-- Model of `parseJSRedirect(body)`: the text between the first
`top.location="` marker and the following quote, `none` when absent. -/
def parseJSRedirect (body : Str) : Option Str :=
  match indexOfStr body (strL ("top.location=\"")) with
  | none => none
  | some start =>
    let start2 := start + (strL ("top.location=\"")).length
    match indexOfStr (body.drop start2) ['"'] with
    | none => none
    | some e => some ((body.drop start2).take e)

/-- Outcome of the `doRequest` + matcher-evaluation step for one URL inside
`matchHTTPRequest`'s redirect loop, supplied by the network oracle: a failed
request, or a response with its match result and body. -/
inductive FetchRes where
  | fail : GoError → FetchRes
  | success : Bool → Str → FetchRes

/-- The per-candidate-URL redirect loop of `matchHTTPRequest` (part_009 lines
544-626), modelled with three oracles: `fetch` (issue the request and evaluate
matchers), `resolve` (`buildFullURL(parsedBaseURL, ·)`), and `normalize`
(`normalizeURL`).  `fuel = maxRedirects + 1 - redirectCount`; `visited` is the
`visitedRedirects` set.  Returns the final match result and the trace of URLs
actually requested, in order. -/
def redirectFollowLoop (fetch : Str → FetchRes) (resolve : Str → Str) (normalize : Str → Str) :
    Nat → List Str → Str → Bool × List Str
  | 0, _, _ => (false, [])
  | fuel + 1, visited, currentURL =>
    let n := normalize currentURL
    if n ∈ visited then (false, [])
    else
      match fetch currentURL with
      | .fail _ => (false, [currentURL])
      | .success true _ => (true, [currentURL])
      | .success false body =>
        match parseJSRedirect body with
        | none => (false, [currentURL])
        | some rp =>
          let r := redirectFollowLoop fetch resolve normalize fuel (n :: visited) (resolve rp)
          (r.1, currentURL :: r.2)

/-- The `maxRedirects` bound hard-coded in `matchHTTPRequest`. -/
def maxRedirects : Nat := 5

/-- One candidate URL's processing in `matchHTTPRequest`: the redirect loop
started with an empty visited set and `redirectCount = 0`. -/
def matchHTTPForPath (fetch : Str → FetchRes) (resolve : Str → Str) (normalize : Str → Str)
    (startURL : Str) : Bool × List Str :=
  redirectFollowLoop fetch resolve normalize (maxRedirects + 1) [] startURL

/-- Structured URL (scheme, host, path), modelling the `url.URL` fields the
engine reads; query and fragment are not produced by the verified paths. -/
structure GoURL where
  scheme : Str
  host : Str
  path : Str
deriving DecidableEq

/-- Rendering of a `GoURL` (`u.String()`). -/
def renderURL (u : GoURL) : Str := u.scheme ++ strL ("://") ++ u.host ++ u.path

/-- Model of `normalizeURL(rawurl)` (utils.go lines 277-284) for URLs whose
path carries the only trailing slashes (the URLs built by `buildFullURL`):
parse, trim trailing `/` from the path, re-render — i.e. strip trailing
slashes. -/
def normalizeURLModel (s : Str) : Str := (s.reverse.dropWhile (fun c => c = '/')).reverse

/-- Model of `buildFullURL(base, path)` (utils.go lines 146-158) for absolute
URLs and for reference paths resolved against a base with empty path (the base
is built as `scheme://host`): an absolute `http(s)://` path is returned
verbatim, otherwise the reference replaces the base path (rooted with a
leading `/` as `url.ResolveReference` does against an empty base path). -/
def buildFullURLModel (base : GoURL) (p : Str) : Str :=
  if startsWithStr p (strL ("http://")) ∨ startsWithStr p (strL ("https://")) then p
  else if startsWithStr p ['/'] then renderURL { base with path := p }
  else renderURL { base with path := '/' :: p }

/-! DNS executor (`matchDNSRequest`, part_009 lines 633-707). -/

/-- Model of a `net.IP` as consumed by the AAAA arm: whether `To4()` is non-nil
and the rendered form. -/
structure GoIP where
  isV4 : Bool
  str : Str
deriving DecidableEq

/-- The resolver oracle: one function per `net.Lookup*` call the executor makes. -/
structure DNSLookups where
  lookupHost : Str → Except GoError (List Str)
  lookupIP : Str → Except GoError (List GoIP)
  lookupTXT : Str → Except GoError (List Str)
  lookupCNAME : Str → Except GoError Str
  lookupNS : Str → Except GoError (List Str)
  lookupMX : Str → Except GoError (List Str)

/-- Model of `matchDNSRequest(host, req, tmpl, logger)`: query type from the
first path entry (uppercased, default `A`), dispatch over the six supported
types, `(false, nil)` for an unsupported type, `(false, err)` on lookup error,
otherwise matcher evaluation over the DNS context.  `single` stands for
`checkSingleMatcher` as in `checkMatchers`. -/
def matchDNSRequest (single : Matcher → MatchContext → Bool) (lookups : DNSLookups)
    (host : Str) (req : Request) : Bool × Option GoError :=
  let queryType := match req.path with
    | [] => strL ("A")
    | p :: _ => upperStr p
  let recOrErr : Option (Except GoError (List Str)) :=
    if queryType = strL ("A") then some (lookups.lookupHost host)
    else if queryType = strL ("AAAA") then
      some ((lookups.lookupIP host).map
        (fun ips => (ips.filter (fun ip => !ip.isV4)).map (fun ip => ip.str)))
    else if queryType = strL ("TXT") then some (lookups.lookupTXT host)
    else if queryType = strL ("CNAME") then some ((lookups.lookupCNAME host).map (fun c => [c]))
    else if queryType = strL ("NS") then some (lookups.lookupNS host)
    else if queryType = strL ("MX") then some (lookups.lookupMX host)
    else none
  match recOrErr with
  | none => (false, none)
  | some (.error e) => (false, some e)
  | some (.ok records) =>
    let ctx : MatchContext :=
      { resp := none, body := [],
        dns := some { records := records, raw := joinStr ['\n'] records },
        network := none, headless := none }
    (checkMatchers single req.matchers req.matchersCondition ctx, none)

/-- The query types `matchDNSRequest` implements. -/
def supportedDNSTypes : List Str :=
  [strL ("A"), strL ("AAAA"), strL ("TXT"), strL ("CNAME"), strL ("NS"), strL ("MX")]

/-! Flow evaluation (the `tmpl.Flow != ""` branch of `MatchTemplate`,
templates.go lines 385-419). -/

/-- Result of the flow branch of `MatchTemplate`: a boolean verdict, the
invalid-index error (`fmt.Errorf("invalid flow request index: ...")`), or a
propagated request-execution error. -/
inductive FlowOut where
  | ok : Bool → FlowOut
  | errInvalidIndex : FlowOut
  | errExec : GoError → FlowOut
deriving DecidableEq

/-- The zero value of `Request`, used as the (never reached) default of the
bounds-checked flow index lookup. -/
def dfltRequest : Request :=
  { rtype := [], method := [], path := [], headers := [], matchers := [],
    matchersCondition := [], attack := [], payloads := [], pipeline := false,
    options := [] }

/-- Processing of the `&&`-split flow parts, translated from the `for _, part`
loop: trim the part; a part not of the form `http(...)` is skipped; the index
is parsed with `Atoi` and must be a valid 1-based position; a request of type
`http` (or untyped) is evaluated via the step oracle `exec` (standing for the
offline-match attempt plus `matchHTTPRequest`), while any other request type
leaves `matched` false; a non-matching step short-circuits the whole flow.
Returns the verdict and the trace of step indices actually evaluated. -/
def flowSteps (exec : Nat → Except GoError Bool) (reqs : List Request) :
    List Str → FlowOut × List Nat
  | [] => (.ok true, [])
  | part :: parts =>
    let tp := trimSpaceStr part
    if startsWithStr tp (strL ("http(")) = true ∧ endsWithStr tp [')'] = true then
      let idxStr := (tp.drop 5).dropLast
      match goAtoi idxStr with
      | none => (.errInvalidIndex, [])
      | some idx =>
        if idx < 1 ∨ idx > (reqs.length : Int) then (.errInvalidIndex, [])
        else
          let req := reqs.getD (idx.toNat - 1) dfltRequest
          if req.rtype = strL ("http") ∨ req.rtype = [] then
            match exec idx.toNat with
            | .error e => (.errExec e, [idx.toNat])
            | .ok matched =>
              if matched then
                let r := flowSteps exec reqs parts
                (r.1, idx.toNat :: r.2)
              else (.ok false, [idx.toNat])
          else (.ok false, [])
    else flowSteps exec reqs parts

/-- Model of the flow branch of `MatchTemplate`: split the flow expression on
`&&` and run the steps. -/
def flowEval (exec : Nat → Except GoError Bool) (reqs : List Request) (flow : Str) :
    FlowOut × List Nat :=
  flowSteps exec reqs (splitStr (strL ("&&")) flow)

/-! Variable substitution (`substituteVariables`, utils.go lines 161-182). -/

/-- Left brace character (U+007B). -/
def lbrace : Char := Char.ofNat 123

/-- Right brace character (U+007D). -/
def rbrace : Char := Char.ofNat 125

/-- The token `fmt.Sprintf` builds for a variable name: the name wrapped in
double braces. -/
def placeholder (k : Str) : Str := lbrace :: lbrace :: k ++ [rbrace, rbrace]

/-- The string items of an `[]interface{}` value, as collected by the
`case []interface{}` arm. -/
def stringItems : List GoVal → List Str
  | [] => []
  | .str s :: rest => s :: stringItems rest
  | _ :: rest => stringItems rest

/-- Model of `substituteVariables(s, vars)`: for each variable in map-iteration
order, replace every occurrence of its `Sprintf`-built token by the value — a
string verbatim, a list joined with commas (only string items of an
`[]interface{}` are kept), anything else left alone.  The map is modelled as
an association list; Go map iteration order is unspecified, so the theorems
quantify over the order. -/
def substituteVariables : Str → List (Str × GoVal) → Str
  | s, [] => s
  | s, kv :: rest =>
    let s2 := match kv.2 with
      | .str v => replaceAll s (placeholder kv.1) v
      | .ilist items => replaceAll s (placeholder kv.1) (joinStr [','] (stringItems items))
      | .slist ss => replaceAll s (placeholder kv.1) (joinStr [','] ss)
      | .other => s
    substituteVariables s2 rest

/-! Target normalization (`NormalizeTarget`, part_004 lines 666-677; the target
reading loop, part_004 lines 595-606; `normalizeTarget`,
src/internal/scanner/processor.go lines 46-51). -/

/-- Model of `strings.HasPrefix(target, "http://") || strings.HasPrefix(target,
"https://")`. -/
def hasURLScheme (t : Str) : Bool :=
  startsWithStr t (strL ("http://")) || startsWithStr t (strL ("https://"))

/-- Model of `NormalizeTarget` (part_004): a schemed entry is returned
unchanged; otherwise `https://` is prepended and the result must pass
`url.Parse`, modelled by the validity oracle `urlOk` (`none` models the error
return). -/
def NormalizeTarget (urlOk : Str → Bool) (t : Str) : Option Str :=
  if hasURLScheme t then some t
  else
    let n := strL ("https://") ++ t
    if urlOk n then some n else none

/-- Model of the unexported `normalizeTarget` (processor.go): a schemed entry
is returned unchanged; otherwise `http://` is prepended. -/
def normalizeTargetScanner (t : Str) : Str :=
  if hasURLScheme t then t else strL ("http://") ++ t

/-- Model of the target reading loop of the scan pipeline (part_004 lines
595-606): each line is trimmed, blank lines are skipped, the rest are
normalized with `NormalizeTarget` (invalid ones skipped). -/
def processTargetLines (urlOk : Str → Bool) (lines : List Str) : List Str :=
  lines.filterMap (fun l =>
    let t := trimSpaceStr l
    if t = [] then none else NormalizeTarget urlOk t)

/-! Concrete instances used by witnesses and counterexamples. -/

/-- A trivial HTTP response used by concrete evaluations. -/
def resp0 : HTTPResponse := { statusCode := 200, header := [] }

/-- A trivial match context with a response present. -/
def ctx0 : MatchContext :=
  { resp := some resp0, body := strL ("hello world"), dns := none, network := none,
    headless := none }

/-- A per-matcher evaluator that never matches, for quantifier instantiation. -/
def singleFalse : Matcher → MatchContext → Bool := fun _ _ => false

/-- A word matcher with `NoCase` set, for the frame-effect witness. -/
def wordMatcherNoCase : Matcher :=
  { mtype := strL ("word"), pattern := [], part := [], words := [strL ("Hello"), strL ("WORLD")],
    status := [], condition := [], regex := [], size := 0, dlength := 0, binary := [],
    xpath := [], jsonpath := [], noCase := true, dsl := [] }

/-- A transient network error (its message contains `connection refused`). -/
def errConnRefused : GoError :=
  { msg := strL ("dial tcp 10.0.0.1:443: connect: connection refused"),
    netTimeout := false, dnsTemporary := false }

/-- A permanent request error (no whitelisted substring, no timeout flags). -/
def errPermanent : GoError :=
  { msg := strL ("unsupported protocol scheme \"ftp\""),
    netTimeout := false, dnsTemporary := false }

/-- An HTTP-typed request with no matchers, for flow instantiation. -/
def httpRequest0 : Request :=
  { rtype := strL ("http"), method := strL ("GET"), path := [strL ("/")], headers := [],
    matchers := [], matchersCondition := [], attack := [], payloads := [], pipeline := false,
    options := [] }

/-- A resolver oracle whose lookups all return empty record sets. -/
def emptyLookups : DNSLookups :=
  { lookupHost := fun _ => .ok [], lookupIP := fun _ => .ok [], lookupTXT := fun _ => .ok [],
    lookupCNAME := fun _ => .ok [], lookupNS := fun _ => .ok [], lookupMX := fun _ => .ok [] }

/-- A DNS request whose query type `PTR` is not implemented. -/
def ptrRequest : Request :=
  { rtype := strL ("dns"), method := [], path := [strL ("PTR")], headers := [],
    matchers := [], matchersCondition := [], attack := [], payloads := [], pipeline := false,
    options := [] }

/-- The base URL of the redirect scenario. -/
def baseH : GoURL := { scheme := strL ("https"), host := strL ("h.example"), path := [] }

/-- Body served at the scenario's start URL: no match, with a JS redirect to `/x`. -/
def scenBody0 : Str := strL ("<html>nothing here; top.location=\"/x\"; rest</html>")

/-- Body served at `/x`: no match, and it redirects to `/x` again. -/
def scenBody1 : Str := strL ("<html>still nothing; top.location=\"/x\";</html>")

/-- The network oracle of the redirect scenario. -/
def scenFetch (u : Str) : FetchRes :=
  if u = strL ("https://h.example") then .success false scenBody0
  else if u = strL ("https://h.example/x") then .success false scenBody1
  else .fail errConnRefused

/-! Helper lemmas. -/

/-- The prefix test agrees with list-prefix. -/
theorem startsWithStr_iff (s p : Str) : startsWithStr s p = true ↔ p <+: s := by
  induction p generalizing s with
  | nil => simp [startsWithStr]
  | cons a ps ih =>
    cases s with
    | nil => simp [startsWithStr]
    | cons c t =>
      by_cases h : c = a
      · simp [startsWithStr, h, ih, List.cons_prefix_cons]
      · simp only [startsWithStr, if_neg h, List.cons_prefix_cons]
        exact ⟨fun hf => absurd hf (by simp), fun hc => absurd hc.1.symm h⟩

/-- The containment test agrees with list-infix. -/
theorem containsStr_iff (s p : Str) : containsStr s p = true ↔ p <:+: s := by
  induction s with
  | nil => simp [containsStr, startsWithStr_iff]
  | cons c t ih =>
    by_cases h : startsWithStr (c :: t) p = true
    · simp [containsStr, h, List.infix_cons_iff, (startsWithStr_iff _ _).mp h]
    · have h' : ¬ p <+: (c :: t) := fun hp => h ((startsWithStr_iff _ _).mpr hp)
      simp [containsStr, h, ih, List.infix_cons_iff, h']

/-- The fuelled replacement worker leaves a string without the pattern unchanged. -/
theorem replaceAllGo_of_no_occurrence (p v : Str) (fuel : Nat) (s : Str) (h : ¬ p <:+: s) :
    replaceAllGo p v fuel s = s := by
  induction fuel generalizing s with
  | zero => cases s <;> rfl
  | succ n ih =>
    cases s with
    | nil => rfl
    | cons c t =>
      rw [replaceAllGo]
      rw [List.infix_cons_iff] at h
      push_neg at h
      have hpre : ¬ (p ≠ [] ∧ startsWithStr (c :: t) p = true) := by
        rintro ⟨-, hs⟩
        exact h.1 ((startsWithStr_iff _ _).mp hs)
      rw [if_neg hpre, ih _ h.2]

/-- Replacing a pattern that does not occur leaves the string unchanged. -/
theorem replaceAll_of_no_occurrence (s p v : Str) (h : ¬ p <:+: s) : replaceAll s p v = s :=
  replaceAllGo_of_no_occurrence p v s.length s h

/-- Replacing the whole string by a value yields the value. -/
theorem replaceAll_self (p v : Str) (hp : p ≠ []) : replaceAll p p v = v := by
  cases p with
  | nil => exact absurd rfl hp
  | cons c t =>
    show replaceAllGo (c :: t) v (t.length + 1) (c :: t) = v
    rw [replaceAllGo, if_pos]
    · have hdrop : List.drop ((c :: t).length - 1) t = [] := by
        simp [List.drop_eq_nil_iff]
      rw [hdrop]
      cases t <;> simp [replaceAllGo]
    · exact ⟨hp, (startsWithStr_iff _ _).mpr List.prefix_rfl⟩

/-- The in-place lowercasing loop is a map. -/
theorem lowerWordsLoop_eq_map (ws : List Str) : lowerWordsLoop ws = ws.map lowerStr := by
  induction ws with
  | nil => rfl
  | cons w t ih => simp [lowerWordsLoop, ih]

/-- The AND loop of the word matcher holds exactly when every word is contained. -/
theorem wordsAndLoop_iff (t : Str) (ws : List Str) :
    wordsAndLoop t ws = true ↔ ∀ w ∈ ws, flexibleContains t w = true := by
  induction ws with
  | nil => simp [wordsAndLoop]
  | cons w rest ih =>
    by_cases h : flexibleContains t w = true
    · simp [wordsAndLoop, h, ih]
    · simp [wordsAndLoop, h]

/-- The OR loop of the word matcher holds exactly when some word is contained. -/
theorem wordsOrLoop_iff (t : Str) (ws : List Str) :
    wordsOrLoop t ws = true ↔ ∃ w ∈ ws, flexibleContains t w = true := by
  induction ws with
  | nil => simp [wordsOrLoop]
  | cons w rest ih =>
    by_cases h : flexibleContains t w = true
    · simp [wordsOrLoop, h]
    · simp [wordsOrLoop, h, ih]

/-- The redirect loop issues at most `fuel` requests. -/
theorem redirectFollowLoop_length_le (fetch : Str → FetchRes) (resolve normalize : Str → Str)
    (fuel : Nat) (visited : List Str) (u : Str) :
    ((redirectFollowLoop fetch resolve normalize fuel visited u).2).length ≤ fuel := by
  induction fuel generalizing visited u with
  | zero => simp [redirectFollowLoop]
  | succ n ih =>
    rw [redirectFollowLoop]
    by_cases hv : normalize u ∈ visited
    · simp [hv]
    · rw [if_neg hv]
      cases hf : fetch u with
      | fail e => simp [hf]
      | success m body =>
        cases m with
        | true => simp [hf]
        | false =>
          cases hr : parseJSRedirect body with
          | none => simp [hf, hr]
          | some rp =>
            have := ih (normalize u :: visited) (resolve rp)
            simp only [hf, hr, List.length_cons]
            omega

/-- No URL whose normalized form is already visited is ever requested, and the
requested URLs have pairwise distinct normalized forms. -/
theorem redirectFollowLoop_no_revisit (fetch : Str → FetchRes) (resolve normalize : Str → Str)
    (fuel : Nat) (visited : List Str) (u : Str) :
    (((redirectFollowLoop fetch resolve normalize fuel visited u).2).map normalize).Nodup ∧
      ∀ v ∈ (redirectFollowLoop fetch resolve normalize fuel visited u).2,
        normalize v ∉ visited := by
  induction fuel generalizing visited u with
  | zero => simp [redirectFollowLoop]
  | succ n ih =>
    rw [redirectFollowLoop]
    by_cases hv : normalize u ∈ visited
    · simp [hv]
    · rw [if_neg hv]
      cases hf : fetch u with
      | fail e => simpa [hf] using hv
      | success m body =>
        cases m with
        | true => simpa [hf] using hv
        | false =>
          cases hr : parseJSRedirect body with
          | none => simpa [hf, hr] using hv
          | some rp =>
            obtain ⟨hnd, hvis⟩ := ih (normalize u :: visited) (resolve rp)
            simp only [hf, hr, List.map_cons, List.nodup_cons, List.mem_cons]
            refine ⟨⟨fun hmem => ?_, hnd⟩, fun v hvmem => ?_⟩
            · obtain ⟨v, hvmem, hveq⟩ := List.mem_map.mp hmem
              exact hvis v hvmem (hveq ▸ List.mem_cons_self _ _)
            · rcases hvmem with h | h
              · exact h ▸ hv
              · exact fun hin => hvis v h (List.mem_cons_of_mem _ hin)

/-! Claim theorems. -/

/-- Claim C1: for every matcher list that is empty, every condition string and
every match context (and every per-matcher evaluator), `checkMatchers` returns
true — an empty matcher list matches vacuously, regardless of response
content. -/
theorem checkMatchers_empty_vacuous (single : Matcher → MatchContext → Bool)
    (condition : Str) (ctx : MatchContext) :
    checkMatchers single [] condition ctx = true := rfl

/-- Claim C2: a word matcher with condition `and` matches iff every listed word
is present in the selected part, and with condition `or` iff at least one is;
presence is `flexibleContains`, substring containment after collapsing
whitespace and normalizing quote characters on both sides (illustrated by the
two closing conjuncts). -/
theorem word_matcher_and_or_semantics :
    (∀ (resp : HTTPResponse) (body : Str) (words : List Str) (part : Str) (noCase : Bool),
      ((matchWordsByPart resp body words part (strL ("and")) noCase).1 = true ↔
        ∀ w ∈ (if noCase then words.map lowerStr else words),
          flexibleContains
            (if noCase then lowerStr (selectWordText resp body part)
             else selectWordText resp body part) w = true) ∧
      ((matchWordsByPart resp body words part (strL ("or")) noCase).1 = true ↔
        ∃ w ∈ (if noCase then words.map lowerStr else words),
          flexibleContains
            (if noCase then lowerStr (selectWordText resp body part)
             else selectWordText resp body part) w = true)) ∧
    flexibleContains (strL ("a   b")) (strL ("a b")) = true ∧
    flexibleContains (strL ("say 'hi'")) (strL ("say \"hi\"")) = true := by
  refine ⟨?_, by decide, by decide⟩
  intro resp body words part noCase
  have hor : strL ("or") ≠ strL ("and") := by decide
  cases noCase with
  | false =>
    constructor
    · simp [matchWordsByPart, wordsAndLoop_iff]
    · simp [matchWordsByPart, hor, wordsOrLoop_iff]
  | true =>
    constructor
    · simp [matchWordsByPart, wordsAndLoop_iff, lowerWordsLoop_eq_map]
    · simp [matchWordsByPart, hor, wordsOrLoop_iff, lowerWordsLoop_eq_map]

/-- Counterexample to claim C3: a word matcher whose own `Condition` field is
empty does not behave like one with `Condition="and"`: with an empty word
list, the empty condition selects the OR loop and yields false, while `and`
yields true. -/
theorem word_condition_empty_differs_from_and :
    (matchWordsByPart resp0 [] [] [] [] false).1 = false ∧
      (matchWordsByPart resp0 [] [] [] (strL ("and")) false).1 = true := by decide

/-- Claim C3 as amended: the list-level condition of `checkMatchers` is
case-normalized with empty defaulting to `and` (first three conjuncts), but a
word matcher's own `Condition` is compared verbatim against `"and"`: any other
string — the empty string included — selects the OR semantics. -/
theorem condition_normalization_amended :
    (∀ (single : Matcher → MatchContext → Bool) (ms : List Matcher) (ctx : MatchContext),
      checkMatchers single ms [] ctx = checkMatchers single ms (strL ("and")) ctx) ∧
    (∀ (single : Matcher → MatchContext → Bool) (ms : List Matcher) (ctx : MatchContext),
      checkMatchers single ms (strL ("AND")) ctx = checkMatchers single ms (strL ("and")) ctx) ∧
    (∀ (single : Matcher → MatchContext → Bool) (ms : List Matcher) (ctx : MatchContext),
      checkMatchers single ms (strL ("Or")) ctx = checkMatchers single ms (strL ("or")) ctx) ∧
    (∀ (resp : HTTPResponse) (body : Str) (words : List Str) (part cond : Str) (noCase : Bool),
      cond ≠ strL ("and") →
      matchWordsByPart resp body words part cond noCase =
        matchWordsByPart resp body words part (strL ("or")) noCase) := by
  refine ⟨fun single ms ctx => rfl, fun single ms ctx => rfl, fun single ms ctx => rfl,
    fun resp body words part cond noCase hne => ?_⟩
  have hor : strL ("or") ≠ strL ("and") := by decide
  simp [matchWordsByPart, hne, hor]

/-- Witness for the amended claim C3 at concrete inputs. -/
theorem condition_normalization_witness :
    matchWordsByPart resp0 (strL ("hello world")) [strL ("hello")] [] [] false =
      matchWordsByPart resp0 (strL ("hello world")) [strL ("hello")] [] (strL ("or")) false ∧
    checkMatchers singleFalse [] [] ctx0 = checkMatchers singleFalse [] (strL ("and")) ctx0 := by
  exact ⟨condition_normalization_amended.2.2.2 resp0 (strL ("hello world")) [strL ("hello")]
    [] [] false (by decide), condition_normalization_amended.1 singleFalse [] ctx0⟩

/-- Claim C10: evaluating a word matcher with `NoCase=true` lowercases the
caller's `Words` slice in place — afterwards the matcher's words are their
lowercased forms (first conjunct); without `NoCase` the words are untouched
(second conjunct); on the matcher level only the `words` field changes (third
conjunct, the `{ m with ... }` update). -/
theorem word_matcher_mutates_words :
    (∀ (resp : HTTPResponse) (body : Str) (words : List Str) (part cond : Str),
      (matchWordsByPart resp body words part cond true).2 = words.map lowerStr) ∧
    (∀ (resp : HTTPResponse) (body : Str) (words : List Str) (part cond : Str),
      (matchWordsByPart resp body words part cond false).2 = words) ∧
    (∀ (m : Matcher) (ctx : MatchContext) (resp : HTTPResponse),
      ctx.resp = some resp → m.noCase = true →
      (checkWordMatcher m ctx).2 = { m with words := m.words.map lowerStr }) := by
  refine ⟨fun resp body words part cond => by
      simp [matchWordsByPart, lowerWordsLoop_eq_map],
    fun resp body words part cond => by simp [matchWordsByPart],
    fun m ctx resp hresp hnc => ?_⟩
  simp [checkWordMatcher, hresp, matchWordsByPart, hnc, lowerWordsLoop_eq_map]

/-- Witness for claim C10: one concrete evaluation replaces the declared words
by their lowercased forms and changes nothing else. -/
theorem word_matcher_mutates_words_witness :
    (checkWordMatcher wordMatcherNoCase ctx0).2 =
      { wordMatcherNoCase with words := wordMatcherNoCase.words.map lowerStr } :=
  word_matcher_mutates_words.2.2 wordMatcherNoCase ctx0 resp0 rfl rfl

/-- One retriable failed attempt with fuel left recurses with the linear
backoff delay `delay * (attempt + 1)` recorded. -/
theorem retryLoop_step (d : Nat) (f : Nat → Option GoError) (a fuel : Nat) (e : GoError)
    (hf : f a = some e) (hret : isRetryableError (some e) = true) (hfuel : fuel ≠ 0) :
    retryLoop d f a (fuel + 1) =
      { attempts := (retryLoop d f (a + 1) fuel).attempts + 1,
        delays := d * (a + 1) :: (retryLoop d f (a + 1) fuel).delays,
        success := (retryLoop d f (a + 1) fuel).success } := by
  have h1 : ¬ (isRetryableError (some e) = false) := by simp [hret]
  simp only [retryLoop, hf]
  rw [if_neg h1, if_neg hfuel]

/-- A retriable failure on the last allowed attempt stops after that attempt. -/
theorem retryLoop_last (d : Nat) (f : Nat → Option GoError) (a : Nat) (e : GoError)
    (hf : f a = some e) :
    retryLoop d f a 1 = { attempts := 1, delays := [], success := false } := by
  simp only [retryLoop, hf]
  by_cases h : isRetryableError (some e) = false
  · rw [if_pos h]
  · rw [if_neg h]
    simp

/-- A non-retryable failure stops after the attempt that produced it. -/
theorem retryLoop_nonretryable (d : Nat) (f : Nat → Option GoError) (a fuel : Nat) (e : GoError)
    (hf : f a = some e) (hret : isRetryableError (some e) = false) :
    retryLoop d f a (fuel + 1) = { attempts := 1, delays := [], success := false } := by
  simp only [retryLoop, hf]
  rw [if_pos hret]

/-- Claim C4: with `Retries=2` and every attempt failing with a retryable
error, exactly 3 attempts occur, with backoff delays `delay*1` then `delay*2`,
strictly increasing for any positive delay (first conjunct); a non-retryable
error on the first attempt yields exactly 1 attempt for any retry budget
(second conjunct). -/
theorem retry_policy :
    (∀ (d : Nat) (attemptF : Nat → Option GoError), 0 < d →
      (∀ n, isRetryableError (attemptF n) = true) →
      (doHTTPRequestWithRetry 2 d attemptF).attempts = 3 ∧
      (doHTTPRequestWithRetry 2 d attemptF).delays = [d * 1, d * 2] ∧
      d * 1 < d * 2) ∧
    (∀ (retries d : Nat) (attemptF : Nat → Option GoError) (e : GoError),
      attemptF 0 = some e → isRetryableError (some e) = false →
      (doHTTPRequestWithRetry retries d attemptF).attempts = 1) := by
  constructor
  · intro d f hd hret
    have hne : ∀ n, ∃ e, f n = some e := by
      intro n
      cases hn : f n with
      | none =>
        have hc := hret n
        rw [hn] at hc
        simp [isRetryableError] at hc
      | some e => exact ⟨e, rfl⟩
    obtain ⟨e0, he0⟩ := hne 0
    obtain ⟨e1, he1⟩ := hne 1
    obtain ⟨e2, he2⟩ := hne 2
    have h0 : isRetryableError (some e0) = true := he0 ▸ hret 0
    have h1 : isRetryableError (some e1) = true := he1 ▸ hret 1
    have hstep0 := retryLoop_step d f 0 2 e0 he0 h0 (by omega)
    have hstep1 := retryLoop_step d f 1 1 e1 he1 h1 (by omega)
    have hlast := retryLoop_last d f 2 e2 he2
    have hrun : doHTTPRequestWithRetry 2 d f = retryLoop d f 0 3 := rfl
    rw [hrun, show (3 : Nat) = 2 + 1 from rfl, hstep0, show (2 : Nat) = 1 + 1 from rfl,
      hstep1, hlast]
    refine ⟨rfl, rfl, by omega⟩
  · intro retries d f e hf hret
    have hrun : doHTTPRequestWithRetry retries d f = retryLoop d f 0 (retries + 1) := rfl
    rw [hrun, retryLoop_nonretryable d f 0 retries e hf hret]

/-- Witness for claim C4 at a concrete delay and concrete transient/permanent
errors. -/
theorem retry_policy_witness :
    ((doHTTPRequestWithRetry 2 5 (fun _ => some errConnRefused)).attempts = 3 ∧
      (doHTTPRequestWithRetry 2 5 (fun _ => some errConnRefused)).delays = [5 * 1, 5 * 2] ∧
      5 * 1 < 5 * 2) ∧
    (doHTTPRequestWithRetry 4 5 (fun _ => some errPermanent)).attempts = 1 := by
  refine ⟨retry_policy.1 5 (fun _ => some errConnRefused) (by omega)
    (fun _ => (by decide : isRetryableError (some errConnRefused) = true)), ?_⟩
  exact retry_policy.2 4 5 (fun _ => some errPermanent) errPermanent rfl (by decide)

/-- Claim C7: a DNS request whose query type is not one of the supported six
returns `(false, nil)` — a non-match and no error — without consulting the
resolver. -/
theorem dns_unsupported_type (single : Matcher → MatchContext → Bool) (lookups : DNSLookups)
    (host : Str) (req : Request) (t : Str) (rest : List Str)
    (hpath : req.path = t :: rest) (hunsup : upperStr t ∉ supportedDNSTypes) :
    matchDNSRequest single lookups host req = (false, none) := by
  simp only [supportedDNSTypes, List.mem_cons, List.not_mem_nil, or_false, not_or] at hunsup
  obtain ⟨h1, h2, h3, h4, h5, h6⟩ := hunsup
  simp [matchDNSRequest, hpath, h1, h2, h3, h4, h5, h6]

/-- Witness for claim C7: the unimplemented `PTR` type yields `(false, nil)`. -/
theorem dns_unsupported_type_witness :
    matchDNSRequest singleFalse emptyLookups (strL ("h.example")) ptrRequest = (false, none) :=
  dns_unsupported_type singleFalse emptyLookups (strL ("h.example")) ptrRequest
    (strL ("PTR")) [] rfl (by decide)

/-- Claim C8: variable substitution applied to a string containing no token of
any supplied variable — in particular a second application to an
already-substituted string — returns it unchanged, whatever the iteration
order of the variable map (first conjunct, quantifying over the order); a
string-list value replaces its token by the comma-joined list (second and
third conjuncts, for `[]string` and `[]interface{}` values). -/
theorem substitution_idempotent :
    (∀ (s : Str) (vars : List (Str × GoVal)),
      (∀ kv ∈ vars, ¬ (placeholder kv.1 <:+: s)) → substituteVariables s vars = s) ∧
    (∀ (k : Str) (ss : List Str),
      substituteVariables (placeholder k) [(k, GoVal.slist ss)] = joinStr [','] ss) ∧
    (∀ (k : Str) (items : List GoVal),
      substituteVariables (placeholder k) [(k, GoVal.ilist items)] =
        joinStr [','] (stringItems items)) := by
  have hne : ∀ k : Str, placeholder k ≠ [] := fun k => by simp [placeholder]
  refine ⟨?_, ?_, ?_⟩
  · intro s vars h
    induction vars with
    | nil => rfl
    | cons kv rest ih =>
      have hkv : ¬ (placeholder kv.1 <:+: s) := h kv (List.mem_cons_self _ _)
      have hstep : substituteVariables s (kv :: rest) = substituteVariables s rest := by
        rw [substituteVariables]
        cases hv : kv.2 <;> simp [replaceAll_of_no_occurrence s _ _ hkv]
      rw [hstep]
      exact ih (fun kv' hm => h kv' (List.mem_cons_of_mem _ hm))
  · intro k ss
    show substituteVariables (replaceAll (placeholder k) (placeholder k) (joinStr [','] ss)) [] =
      joinStr [','] ss
    rw [replaceAll_self _ _ (hne k)]
    rfl
  · intro k items
    show substituteVariables
        (replaceAll (placeholder k) (placeholder k) (joinStr [','] (stringItems items))) [] =
      joinStr [','] (stringItems items)
    rw [replaceAll_self _ _ (hne k)]
    rfl

/-- Witness for claim C8: substituting into a token-free string is a no-op, in
either map order, and a list value is comma-joined. -/
theorem substitution_idempotent_witness :
    substituteVariables (strL ("/admin?tok=abc"))
        [(strL ("token"), GoVal.str (strL ("abc"))), (strL ("host"), GoVal.other)] =
      strL ("/admin?tok=abc") ∧
    substituteVariables (strL ("/admin?tok=abc"))
        [(strL ("host"), GoVal.other), (strL ("token"), GoVal.str (strL ("abc")))] =
      strL ("/admin?tok=abc") ∧
    substituteVariables (placeholder (strL ("k"))) [(strL ("k"), GoVal.slist [strL ("a"), strL ("b")])] =
      strL ("a,b") := by
  refine ⟨substitution_idempotent.1 _ _ ?_, substitution_idempotent.1 _ _ ?_,
    (substitution_idempotent.2.1 (strL ("k")) [strL ("a"), strL ("b")]).trans (by decide)⟩
  · intro kv hkv
    rcases List.mem_cons.mp hkv with h | h
    · subst h; decide
    · rcases List.mem_cons.mp h with h | h
      · subst h; decide
      · exact absurd h (List.not_mem_nil _)
  · intro kv hkv
    rcases List.mem_cons.mp hkv with h | h
    · subst h; decide
    · rcases List.mem_cons.mp h with h | h
      · subst h; decide
      · exact absurd h (List.not_mem_nil _)

/-- Counterexample to claim C9: the target normalizer cited from the scanner
processor prepends `http://`, not `https://`, to a scheme-less entry. -/
theorem target_scheme_counterexample :
    normalizeTargetScanner (strL ("example.com")) = strL ("http://example.com") ∧
      strL ("http://example.com") ≠ strL ("https://example.com") := by decide

/-- Claim C9 as amended: entries read from the target list are trimmed with
blank lines skipped; the scan pipeline's `NormalizeTarget` returns schemed
entries unchanged and prepends `https://` otherwise (when the result parses),
while the legacy scanner `normalizeTarget` prepends `http://`. -/
theorem target_normalization_amended :
    (∀ (urlOk : Str → Bool) (t : Str), hasURLScheme t = true →
      NormalizeTarget urlOk t = some t) ∧
    (∀ (urlOk : Str → Bool) (t : Str), hasURLScheme t = false →
      urlOk (strL ("https://") ++ t) = true →
      NormalizeTarget urlOk t = some (strL ("https://") ++ t)) ∧
    (∀ (urlOk : Str → Bool) (l : Str) (rest : List Str), trimSpaceStr l = [] →
      processTargetLines urlOk (l :: rest) = processTargetLines urlOk rest) ∧
    (∀ t : Str, hasURLScheme t = false → normalizeTargetScanner t = strL ("http://") ++ t) ∧
    (∀ t : Str, hasURLScheme t = true → normalizeTargetScanner t = t) := by
  refine ⟨fun urlOk t h => by simp [NormalizeTarget, h],
    fun urlOk t h hok => by simp [NormalizeTarget, h, hok],
    fun urlOk l rest h => by simp [processTargetLines, h],
    fun t h => by simp [normalizeTargetScanner, h],
    fun t h => by simp [normalizeTargetScanner, h]⟩

/-- Witness for the amended claim C9 at concrete entries. -/
theorem target_normalization_witness :
    NormalizeTarget (fun _ => true) (strL ("http://a.example")) = some (strL ("http://a.example")) ∧
    NormalizeTarget (fun _ => true) (strL ("a.example")) = some (strL ("https://a.example")) ∧
    processTargetLines (fun _ => true) [strL ("  "), strL ("a.example")] =
      processTargetLines (fun _ => true) [strL ("a.example")] ∧
    normalizeTargetScanner (strL ("a.example")) = strL ("http://a.example") := by
  refine ⟨target_normalization_amended.1 _ _ (by decide), ?_,
    target_normalization_amended.2.2.1 _ _ _ (by decide),
    target_normalization_amended.2.2.2.1 _ (by decide)⟩
  exact (target_normalization_amended.2.1 _ _ (by decide) rfl).trans (by decide)

/-- Claim C5: redirect following terminates.  For every network behaviour the
number of requests one candidate URL generates is bounded by
`maxRedirects + 1` (first conjunct) and no two issued requests share a
normalized URL — revisiting stops the loop (second conjunct).  In the concrete
scenario, a non-matching body carrying `top.location="/x"` produces exactly
one follow-up request to `/x` resolved against the base URL, even though `/x`
keeps redirecting to itself (remaining conjuncts). -/
theorem redirect_following :
    (∀ (fetch : Str → FetchRes) (resolve normalize : Str → Str) (u : Str),
      ((matchHTTPForPath fetch resolve normalize u).2).length ≤ maxRedirects + 1) ∧
    (∀ (fetch : Str → FetchRes) (resolve normalize : Str → Str) (u : Str),
      (((matchHTTPForPath fetch resolve normalize u).2).map normalize).Nodup) ∧
    matchHTTPForPath scenFetch (buildFullURLModel baseH) normalizeURLModel
        (strL ("https://h.example")) =
      (false, [strL ("https://h.example"), strL ("https://h.example/x")]) ∧
    (matchHTTPForPath scenFetch (buildFullURLModel baseH) normalizeURLModel
        (strL ("https://h.example"))).2.count (strL ("https://h.example/x")) = 1 ∧
    parseJSRedirect scenBody0 = some (strL ("/x")) ∧
    buildFullURLModel baseH (strL ("/x")) = strL ("https://h.example/x") := by
  refine ⟨fun fetch resolve normalize u =>
      redirectFollowLoop_length_le fetch resolve normalize (maxRedirects + 1) [] u,
    fun fetch resolve normalize u =>
      (redirectFollowLoop_no_revisit fetch resolve normalize (maxRedirects + 1) [] u).1,
    by decide, by decide, by decide, by decide⟩

/-- Unfolding of one valid `http(i)` flow part: the step evaluates request
`i` when it is HTTP-typed and otherwise yields a non-match. -/
theorem flowSteps_cons_http (exec : Nat → Except GoError Bool) (reqs : List Request)
    (part : Str) (parts : List Str) (idx : Int)
    (hguard : startsWithStr (trimSpaceStr part) (strL ("http(")) = true ∧
      endsWithStr (trimSpaceStr part) [')'] = true)
    (hatoi : goAtoi (((trimSpaceStr part).drop 5).dropLast) = some idx)
    (hbound : ¬ (idx < 1 ∨ idx > (reqs.length : Int))) :
    flowSteps exec reqs (part :: parts) =
      (if (reqs.getD (idx.toNat - 1) dfltRequest).rtype = strL ("http") ∨
          (reqs.getD (idx.toNat - 1) dfltRequest).rtype = [] then
        match exec idx.toNat with
        | .error e => (.errExec e, [idx.toNat])
        | .ok matched =>
          if matched then
            ((flowSteps exec reqs parts).1, idx.toNat :: (flowSteps exec reqs parts).2)
          else (.ok false, [idx.toNat])
      else (.ok false, [])) := by
  simp only [flowSteps, hatoi]
  rw [if_pos hguard, if_neg hbound]

/-- Unfolding of one out-of-range `http(i)` flow part: fail fast. -/
theorem flowSteps_cons_invalid (exec : Nat → Except GoError Bool) (reqs : List Request)
    (part : Str) (parts : List Str) (idx : Int)
    (hguard : startsWithStr (trimSpaceStr part) (strL ("http(")) = true ∧
      endsWithStr (trimSpaceStr part) [')'] = true)
    (hatoi : goAtoi (((trimSpaceStr part).drop 5).dropLast) = some idx)
    (hbound : idx < 1 ∨ idx > (reqs.length : Int)) :
    flowSteps exec reqs (part :: parts) = (.errInvalidIndex, []) := by
  simp only [flowSteps, hatoi]
  rw [if_pos hguard, if_pos hbound]

/-- Claim C6: for the flow `http(1) && http(2)`, a non-matching request 1
yields the overall verdict false with step 2 never evaluated (first conjunct);
when every referenced step matches, the overall verdict is a match with both
steps evaluated in order (second conjunct); a step index outside the 1-based
range of the request list fails fast with the invalid-index error before any
step runs (last two conjuncts, indices 3 and 0 against two requests). -/
theorem flow_short_circuit :
    (∀ (exec : Nat → Except GoError Bool) (r1 r2 : Request),
      (r1.rtype = strL ("http") ∨ r1.rtype = []) →
      exec 1 = .ok false →
      flowEval exec [r1, r2] (strL ("http(1) && http(2)")) = (.ok false, [1])) ∧
    (∀ (exec : Nat → Except GoError Bool) (r1 r2 : Request),
      (r1.rtype = strL ("http") ∨ r1.rtype = []) →
      (r2.rtype = strL ("http") ∨ r2.rtype = []) →
      exec 1 = .ok true → exec 2 = .ok true →
      flowEval exec [r1, r2] (strL ("http(1) && http(2)")) = (.ok true, [1, 2])) ∧
    (∀ (exec : Nat → Except GoError Bool) (r1 r2 : Request),
      flowEval exec [r1, r2] (strL ("http(3) && http(2)")) = (.errInvalidIndex, [])) ∧
    (∀ (exec : Nat → Except GoError Bool) (r1 r2 : Request),
      flowEval exec [r1, r2] (strL ("http(0) && http(2)")) = (.errInvalidIndex, [])) := by
  have hs12 : splitStr (strL ("&&")) (strL ("http(1) && http(2)")) =
      [strL ("http(1) "), strL (" http(2)")] := by decide
  have hs32 : splitStr (strL ("&&")) (strL ("http(3) && http(2)")) =
      [strL ("http(3) "), strL (" http(2)")] := by decide
  have hs02 : splitStr (strL ("&&")) (strL ("http(0) && http(2)")) =
      [strL ("http(0) "), strL (" http(2)")] := by decide
  refine ⟨?_, ?_, ?_, ?_⟩
  · intro exec r1 r2 hr1 hex
    show flowSteps exec [r1, r2] (splitStr (strL ("&&")) (strL ("http(1) && http(2)"))) =
      (.ok false, [1])
    rw [hs12, flowSteps_cons_http exec [r1, r2] (strL ("http(1) ")) [strL (" http(2)")] 1
      (by decide) (by decide) (by norm_num)]
    simp only [show (1 : Int).toNat = 1 from rfl]
    have hget : List.getD [r1, r2] (1 - 1) dfltRequest = r1 := rfl
    rw [hget, if_pos hr1]
    simp [hex]
  · intro exec r1 r2 hr1 hr2 hex1 hex2
    show flowSteps exec [r1, r2] (splitStr (strL ("&&")) (strL ("http(1) && http(2)"))) =
      (.ok true, [1, 2])
    rw [hs12, flowSteps_cons_http exec [r1, r2] (strL ("http(1) ")) [strL (" http(2)")] 1
      (by decide) (by decide) (by norm_num)]
    simp only [show (1 : Int).toNat = 1 from rfl]
    have hget1 : List.getD [r1, r2] (1 - 1) dfltRequest = r1 := rfl
    rw [hget1, if_pos hr1]
    rw [flowSteps_cons_http exec [r1, r2] (strL (" http(2)")) [] 2
      (by decide) (by decide) (by norm_num)]
    simp only [show (2 : Int).toNat = 2 from rfl]
    have hget2 : List.getD [r1, r2] (2 - 1) dfltRequest = r2 := rfl
    rw [hget2, if_pos hr2]
    simp [hex1, hex2, flowSteps]
  · intro exec r1 r2
    show flowSteps exec [r1, r2] (splitStr (strL ("&&")) (strL ("http(3) && http(2)"))) =
      (.errInvalidIndex, [])
    rw [hs32, flowSteps_cons_invalid exec [r1, r2] (strL ("http(3) ")) [strL (" http(2)")] 3
      (by decide) (by decide) (by norm_num)]
  · intro exec r1 r2
    show flowSteps exec [r1, r2] (splitStr (strL ("&&")) (strL ("http(0) && http(2)"))) =
      (.errInvalidIndex, [])
    rw [hs02, flowSteps_cons_invalid exec [r1, r2] (strL ("http(0) ")) [strL (" http(2)")] 0
      (by decide) (by decide) (by norm_num)]

/-- Witness for claim C6 at a concrete executor and concrete requests. -/
theorem flow_short_circuit_witness :
    flowEval (fun _ => .ok false) [httpRequest0, httpRequest0]
        (strL ("http(1) && http(2)")) = (.ok false, [1]) ∧
    flowEval (fun _ => .ok true) [httpRequest0, httpRequest0]
        (strL ("http(1) && http(2)")) = (.ok true, [1, 2]) :=
  ⟨flow_short_circuit.1 (fun _ => .ok false) httpRequest0 httpRequest0 (Or.inl rfl) rfl,
    flow_short_circuit.2.1 (fun _ => .ok true) httpRequest0 httpRequest0
      (Or.inl rfl) (Or.inl rfl) rfl rfl⟩

end NucleiSpec
